import Mathlib

/-!
Verification of the IndianMarketBriefing pipeline.

This file gives a shallow embedding, over exact rational arithmetic, of the
invariant-bearing logic of `india_briefing.py` (quote derivation from a
closing-price series, portfolio performance and top-movers computation, the
weekend-skip orchestration guard) and of `fix_portfolio.py` (the symbol
normalizer and the CSV cleanup pass), together with theorems settling the
specification's claims about them.

Modelling conventions:
* pandas/numpy floating-point numbers are modelled as `ℚ`; a missing or
  non-finite value (`NaN`, the `NaN`s produced by `Series.map` on an absent
  key, and the non-finite result of a division whose divisor is zero) is
  modelled as `none : Option ℚ`.  Sums model `skipna=True`: `none` entries
  contribute nothing.
* Python dictionaries are modelled as association lists (`List (k × v)`)
  with `List.lookup`; the dict literals in the source have pairwise distinct
  keys, so first-match lookup agrees with dict lookup.
* The external price feed (`yf.download(...)['Close'][ticker]`) is modelled
  as a function `String → Except String (List (Option ℚ))`: the per-ticker
  column of closing prices, or the exception raised while extracting it.
-/

namespace IndianMarketBriefing

/-- A portfolio row as consumed by the pipeline: `Symbol` and `Quantity`
columns of `india_portfolio.csv`. -/
structure Position where
  symbol : String
  quantity : ℚ
deriving DecidableEq, Repr

/-- The `current_prices` / `percent_changes` dictionaries built by
`fetch_market_data`: ticker → rational value. -/
abbrev QuoteMap := List (String × ℚ)

/-- The column assignment `df['CurrentValue'] = df['Quantity'] * df['CurrentPrice']`
(india_briefing.py line 101); a missing price (`NaN`) propagates. -/
def valueOf (quantity : ℚ) (price : Option ℚ) : Option ℚ :=
  price.map fun p => quantity * p

/-- The column assignment
`df['DailyPnL'] = df['CurrentValue'] - (df['CurrentValue'] / (1 + df['ChangePct']/100))`
(india_briefing.py line 102).  A missing operand propagates; when the divisor
`1 + pct/100` is zero the float code divides by zero and yields a non-finite
value, modelled as `none`. -/
def pnlOf (value pct : Option ℚ) : Option ℚ :=
  match value, pct with
  | some v, some c => if 1 + c / 100 = 0 then none else some (v - v / (1 + c / 100))
  | _, _ => none

/-- One enriched row of the performance DataFrame built by
`calculate_performance` (columns Symbol, Quantity, CurrentPrice, ChangePct,
CurrentValue, DailyPnL). -/
structure PerfRow where
  symbol : String
  quantity : ℚ
  currentPrice : Option ℚ
  changePct : Option ℚ
  currentValue : Option ℚ
  dailyPnL : Option ℚ
deriving DecidableEq, Repr

/-- The per-row computation of `calculate_performance` lines 93-102:
`Series.map` over a dict gives `NaN` (`none`) on an absent key. -/
def perfRow (current_prices percent_changes : QuoteMap) (p : Position) : PerfRow :=
  { symbol := p.symbol
    quantity := p.quantity
    currentPrice := current_prices.lookup p.symbol
    changePct := percent_changes.lookup p.symbol
    currentValue := valueOf p.quantity (current_prices.lookup p.symbol)
    dailyPnL := pnlOf (valueOf p.quantity (current_prices.lookup p.symbol))
        (percent_changes.lookup p.symbol) }

/-- pandas `Series.sum()` with its default `skipna=True`: `NaN` (`none`)
entries contribute nothing. -/
def nanSum (l : List (Option ℚ)) : ℚ :=
  (l.filterMap id).sum

/-- Sort key used by `nlargest`/`nsmallest`: the `ChangePct` value of an
index-tagged row.  It is only applied after the `NaN` rows have been
dropped, so the `getD 0` default is never the value used. -/
def pctKey (x : ℕ × PerfRow) : ℚ :=
  x.2.changePct.getD 0

/-- The relation "a comes no later than b" in the `nlargest` (top gainers)
output: strictly larger `ChangePct` first, ties by original row index
(pandas `keep='first'` / stable mergesort semantics). -/
def gainBefore (a b : ℕ × PerfRow) : Prop :=
  pctKey b < pctKey a ∨ (pctKey a = pctKey b ∧ a.1 ≤ b.1)

/-- The relation "a comes no later than b" in the `nsmallest` (top losers)
output: strictly smaller `ChangePct` first, ties by original row index. -/
def loseBefore (a b : ℕ × PerfRow) : Prop :=
  pctKey a < pctKey b ∨ (pctKey a = pctKey b ∧ a.1 ≤ b.1)

/-- The relation "a comes strictly before b" in the gainers output: strictly
larger `ChangePct`, or equal `ChangePct` and strictly earlier original row. -/
def gainStrictBefore (a b : ℕ × PerfRow) : Prop :=
  pctKey b < pctKey a ∨ (pctKey a = pctKey b ∧ a.1 < b.1)

/-- The relation "a comes strictly before b" in the losers output. -/
def loseStrictBefore (a b : ℕ × PerfRow) : Prop :=
  pctKey a < pctKey b ∨ (pctKey a = pctKey b ∧ a.1 < b.1)

instance : DecidableRel gainBefore := fun a b => by
  unfold gainBefore; infer_instance

instance : DecidableRel loseBefore := fun a b => by
  unfold loseBefore; infer_instance

instance : IsTotal (ℕ × PerfRow) gainBefore where
  total a b := by
    unfold gainBefore
    rcases lt_trichotomy (pctKey a) (pctKey b) with h | h | h
    · exact Or.inr (Or.inl h)
    · rcases Nat.le_total a.1 b.1 with hi | hi
      · exact Or.inl (Or.inr ⟨h, hi⟩)
      · exact Or.inr (Or.inr ⟨h.symm, hi⟩)
    · exact Or.inl (Or.inl h)

instance : IsTrans (ℕ × PerfRow) gainBefore where
  trans a b c hab hbc := by
    unfold gainBefore at hab hbc ⊢
    rcases hab with h1 | ⟨h1, i1⟩ <;> rcases hbc with h2 | ⟨h2, i2⟩
    · exact Or.inl (by linarith)
    · exact Or.inl (by linarith)
    · exact Or.inl (by linarith)
    · exact Or.inr ⟨by linarith, le_trans i1 i2⟩

instance : IsTotal (ℕ × PerfRow) loseBefore where
  total a b := by
    unfold loseBefore
    rcases lt_trichotomy (pctKey a) (pctKey b) with h | h | h
    · exact Or.inl (Or.inl h)
    · rcases Nat.le_total a.1 b.1 with hi | hi
      · exact Or.inl (Or.inr ⟨h, hi⟩)
      · exact Or.inr (Or.inr ⟨h.symm, hi⟩)
    · exact Or.inr (Or.inl h)

instance : IsTrans (ℕ × PerfRow) loseBefore where
  trans a b c hab hbc := by
    unfold loseBefore at hab hbc ⊢
    rcases hab with h1 | ⟨h1, i1⟩ <;> rcases hbc with h2 | ⟨h2, i2⟩
    · exact Or.inl (by linarith)
    · exact Or.inl (by linarith)
    · exact Or.inl (by linarith)
    · exact Or.inr ⟨by linarith, le_trans i1 i2⟩

/-- The selection `df.nlargest(3, 'ChangePct')` (india_briefing.py line 108): pandas drops
the `NaN` rows of the sort column, then returns the first `n` rows of a
stable descending sort (`keep='first'`, mergesort on the key).  Rows are
tagged with their original DataFrame index; stability is realised by
breaking ties on that index, which makes the order total. -/
def nlargestPct (n : ℕ) (rows : List PerfRow) : List (ℕ × PerfRow) :=
  (List.insertionSort gainBefore (rows.enum.filter fun x => x.2.changePct.isSome)).take n

/-- The selection `df.nsmallest(3, 'ChangePct')` (india_briefing.py line 109). -/
def nsmallestPct (n : ℕ) (rows : List PerfRow) : List (ℕ × PerfRow) :=
  (List.insertionSort loseBefore (rows.enum.filter fun x => x.2.changePct.isSome)).take n

/-- The result dictionary of `calculate_performance`. -/
structure Performance where
  rows : List PerfRow
  total_value : ℚ
  total_daily_pnl : ℚ
  top_gainers : List (ℕ × PerfRow)
  top_losers : List (ℕ × PerfRow)
deriving DecidableEq, Repr

/-- The function `calculate_performance(df, current_prices, percent_changes)`
(india_briefing.py lines 90-117). -/
def calculate_performance (df : List Position)
    (current_prices percent_changes : QuoteMap) : Performance :=
  let rows := df.map (perfRow current_prices percent_changes)
  { rows := rows
    total_value := nanSum (rows.map (·.currentValue))
    total_daily_pnl := nanSum (rows.map (·.dailyPnL))
    top_gainers := nlargestPct 3 rows
    top_losers := nsmallestPct 3 rows }

/-- The body of the per-ticker loop of `fetch_market_data`
(india_briefing.py lines 69-82): `dropna` the closing series
(`filterMap id`), then branch on how many observations remain;
the head of the reversed list is `iloc[-1]`, the next is `iloc[-2]`. -/
def quoteFromSeries (s : List (Option ℚ)) : ℚ × ℚ :=
  match (s.filterMap id).reverse with
  | current_price :: prev_close :: _ =>
      (current_price, (current_price - prev_close) / prev_close * 100)
  | [current_price] => (current_price, 0)
  | [] => (0, 0)

/-- The two index tickers appended to the portfolio symbols
(india_briefing.py line 41). -/
def indices : List String := ["^NSEI", "^BSESN"]

/-- The function `fetch_market_data(df)` (india_briefing.py lines 33-88), with the
external data source abstracted: for each ticker of
`all_tickers = symbols + indices`, extracting the ticker's series may raise
(`Except.error`), in which case the `try/except` inside the loop substitutes
the zero defaults; otherwise the quote is derived by `quoteFromSeries`.
The two result dictionaries are returned as one ticker-keyed list of
`(current_price, percent_change)` pairs. -/
def fetch_market_data (df : List Position)
    (close_data : String → Except String (List (Option ℚ))) :
    List (String × ℚ × ℚ) :=
  let all_tickers := df.map Position.symbol ++ indices
  all_tickers.map fun ticker =>
    match close_data ticker with
    | .ok s => (ticker, quoteFromSeries s)
    | .error _ => (ticker, 0, 0)

/-- The static misspelled-to-canonical ticker table of `fix_portfolio.py`
lines 4-55, as an association list in source order (the dict literal's keys
are pairwise distinct, so first-match lookup agrees with Python). -/
def symbol_map : List (String × String) :=
  [("MOTSU", "MOTHERSON"),
   ("MOTSUM", "MSUMI"),
   ("HYUMOT", "HYUNDAI"),
   ("TATMOT", "TATAMOTORS"),
   ("BANBAN", "BANDHANBNK"),
   ("BANMAH", "MAHABANK"),
   ("CANBAN", "CANBK"),
   ("HDFBAN", "HDFCBANK"),
   ("IDFBAN", "IDFCFIRSTB"),
   ("INDBA", "INDUSINDBK"),
   ("YESBAN", "YESBANK"),
   ("AMBCE", "AMBUJACEM"),
   ("AARIND", "AARTIIND"),
   ("UNIP", "UNIPARTS"),
   ("PATEN", "PATELENG"),
   ("ONE97", "PAYTM"),
   ("ICINIF", "ICICINIFTY"),
   ("ADAWIL", "AWL"),
   ("BHADYN", "BDL"),
   ("COMENG", "CUMMINSIND"),
   ("SUZENE", "SUZLON"),
   ("BAFINS", "BAJFINANCE"),
   ("CDSL", "CDSL"),
   ("JIOFIN", "JIOFIN"),
   ("LICHF", "LICHSGFIN"),
   ("MAHFIN", "M&MFIN"),
   ("HCLTEC", "HCLTECH"),
   ("TATTEC", "TATATECH"),
   ("ADAPOR", "ADANIPORTS"),
   ("GMRINF", "GMRAIRPORT"),
   ("ZEEENT", "ZEEL"),
   ("HINCOP", "HINDCOPPER"),
   ("ASIPAI", "ASIANPAINT"),
   ("ORIPAP", "ORIENTPPR"),
   ("BIOCON", "BIOCON"),
   ("JAIIRR", "JISLJALEQS"),
   ("BHAPET", "BPCL"),
   ("INDOIL", "IOC"),
   ("RELIND", "RELIANCE"),
   ("SCI", "SCI"),
   ("SAIL", "SAIL"),
   ("TATSTE", "TATASTEEL"),
   ("ADAENT", "ADANIENT"),
   ("GMRINFRA", "GMRAIRPORT"),
   ("GMRPOWER", "GMRPWR"),
   ("ICICINIFTY", "ICICINIFTY"),
   ("RELPOW", "RPOWER"),
   ("RELINF", "RELINFRA"),
   ("ALOIND", "ALOKINDS"),
   ("ZENTEC", "ZENTEC")]

/-- Python's `s.replace('.NS', '')` specialised to the `'.NS'` pattern:
one left-to-right pass deleting each non-overlapping occurrence and
resuming after the deleted match. -/
def stripNS : List Char → List Char
  | '.' :: 'N' :: 'S' :: rest => stripNS rest
  | c :: rest => c :: stripNS rest
  | [] => []

/-- The strip step `str(sym).replace('.NS', '')` on strings. -/
def replaceNS (s : String) : String :=
  ⟨stripNS s.data⟩

/-- The mapping step `get_correct_symbol(sym)` (fix_portfolio.py lines 62-67). -/
def get_correct_symbol (sym : String) : String :=
  let clean_sym := replaceNS sym
  match symbol_map.lookup clean_sym with
  | some v => v
  | none => clean_sym

/-- One row of `india_portfolio.csv`: the `Symbol` column, the `Quantity`
column, and the remaining fields of the row (whatever further columns the
file has), which the scripts never touch. -/
structure CsvRow where
  symbol : String
  quantity : ℚ
  rest : List String
deriving DecidableEq, Repr

/-- The table transformation performed by `fix_portfolio()`
(fix_portfolio.py lines 57-77): `df['Symbol'] = df['Symbol'].apply(get_correct_symbol)`
and write the table back — only the Symbol field of each row is rewritten. -/
def fix_portfolio (rows : List CsvRow) : List CsvRow :=
  rows.map fun r => { r with symbol := get_correct_symbol r.symbol }

/-- The cleaning `search_term = query.replace('.NS', '')` in `fetch_news`
(india_briefing.py line 126). -/
def newsSearchTerm (query : String) : String :=
  replaceNS query

/-! ### Orchestrator (`run_briefing`, india_briefing.py lines 228-272) -/

/-- The pipeline stages `run_briefing` can invoke; the network-touching ones
are `fetchQuotesS`, `fetchNewsS`, `generateS`, `sendReportS`, `sendAlertS`. -/
inductive Stage
  | loadPortfolioS
  | fetchQuotesS
  | calcPerformanceS
  | fetchNewsS
  | generateS
  | sendReportS
  | sendAlertS
deriving DecidableEq, Repr

/-- Terminal outcome of one `run_briefing` call. -/
inductive RunOutcome
  | skip
  | success
  | failed (msg : String)
deriving DecidableEq, Repr

/-- The external world as `run_briefing` observes it:
`loadResult` is `load_portfolio()` (`none` when it printed an error and
returned `None`); `close_data` is the per-ticker closing-price feed;
`newsResult` is `fetch_news` (which may raise inside feed parsing);
`genResult` is `generate_analysis` (it catches its own exception and always
returns text); `sendResult` is `send_telegram_report` (`requests.post` may
raise). -/
structure Env where
  loadResult : Option (List Position)
  close_data : String → Except String (List (Option ℚ))
  newsResult : Except String (List (String × String))
  genResult : String
  sendResult : Except String Unit

/-- The orchestrator `run_briefing()` as a function of the current day-of-week
(`datetime.weekday()`: Monday = 0 … Sunday = 6) and the external world,
returning the terminal outcome together with the list of stages invoked,
in order.  `if today >= 5: return` is the weekend guard; inside the `try`
block any raising stage routes to `send_error_alert` and terminates the
run. -/
def run_briefing (env : Env) (today : ℕ) : RunOutcome × List Stage :=
  if today ≥ 5 then
    (RunOutcome.skip, [])
  else
    match env.loadResult with
    | none =>
        (RunOutcome.failed "Failed to load portfolio CSV",
         [Stage.loadPortfolioS, Stage.sendAlertS])
    | some df =>
        let quotes := fetch_market_data df env.close_data
        let current_prices : QuoteMap := quotes.map fun q => (q.1, q.2.1)
        let percent_changes : QuoteMap := quotes.map fun q => (q.1, q.2.2)
        let _perf := calculate_performance df current_prices percent_changes
        match env.newsResult with
        | .error e =>
            (RunOutcome.failed e,
             [Stage.loadPortfolioS, Stage.fetchQuotesS, Stage.calcPerformanceS,
              Stage.fetchNewsS, Stage.sendAlertS])
        | .ok _ =>
            let _report := env.genResult
            match env.sendResult with
            | .error e =>
                (RunOutcome.failed e,
                 [Stage.loadPortfolioS, Stage.fetchQuotesS, Stage.calcPerformanceS,
                  Stage.fetchNewsS, Stage.generateS, Stage.sendReportS,
                  Stage.sendAlertS])
            | .ok _ =>
                (RunOutcome.success,
                 [Stage.loadPortfolioS, Stage.fetchQuotesS, Stage.calcPerformanceS,
                  Stage.fetchNewsS, Stage.generateS, Stage.sendReportS])

/-! ### Helper lemmas -/

/-- The divisor of the daily-P&L formula vanishes exactly at `ChangePct = -100`. -/
theorem divisor_eq_zero_iff (c : ℚ) : 1 + c / 100 = 0 ↔ c = -100 := by
  constructor
  · intro h; linarith
  · intro h; rw [h]; norm_num

/-! ### C1: the daily-P&L formula -/

/-- C1. For every row of the performance DataFrame whose `ChangePct` is a
(present) value `c ≠ -100` and whose `CurrentPrice` is present, the computed
`CurrentValue` is `Quantity * CurrentPrice` and the computed `DailyPnL` is
`CurrentValue - CurrentValue / (1 + c/100)`; when `c = 0` the `DailyPnL` is
exactly `0`. -/
theorem c1_daily_pnl_formula (df : List Position)
    (current_prices percent_changes : QuoteMap) (r : PerfRow)
    (hr : r ∈ (calculate_performance df current_prices percent_changes).rows)
    (pr c : ℚ) (hpr : r.currentPrice = some pr) (hc : r.changePct = some c)
    (hne : c ≠ -100) :
    r.currentValue = some (r.quantity * pr) ∧
    r.dailyPnL = some (r.quantity * pr - (r.quantity * pr) / (1 + c / 100)) ∧
    (c = 0 → r.dailyPnL = some 0) := by
  simp only [calculate_performance, List.mem_map] at hr
  obtain ⟨p, hp, rfl⟩ := hr
  simp only [perfRow] at hpr hc ⊢
  rw [hpr, hc, valueOf, Option.map_some']
  have hdiv : 1 + c / 100 ≠ 0 := fun h => hne (divisor_eq_zero_iff c |>.1 h)
  refine ⟨rfl, ?_, ?_⟩
  · simp only [pnlOf, if_neg hdiv]
  · intro h0
    subst h0
    norm_num [pnlOf]

/-- Witness for C1 at the spec's end-to-end example: quantity 10 at price
110 after a +10% day gives value 1100 and daily P&L 1100 - 1000 = 100. -/
theorem c1_daily_pnl_formula_witness :
    (perfRow [("AAA.NS", 110)] [("AAA.NS", 10)] ⟨"AAA.NS", 10⟩).currentValue =
      some ((10 : ℚ) * 110) ∧
    (perfRow [("AAA.NS", 110)] [("AAA.NS", 10)] ⟨"AAA.NS", 10⟩).dailyPnL =
      some ((10 : ℚ) * 110 - (10 : ℚ) * 110 / (1 + (10 : ℚ) / 100)) := by
  have h := c1_daily_pnl_formula [⟨"AAA.NS", 10⟩] [("AAA.NS", 110)] [("AAA.NS", 10)]
      (perfRow [("AAA.NS", 110)] [("AAA.NS", 10)] ⟨"AAA.NS", 10⟩)
      (by simp [calculate_performance]) 110 10 rfl rfl (by norm_num)
  exact ⟨h.1, h.2.1⟩

/-! ### C2: the division-by-zero boundary is NOT guarded -/

/-- C2 counterexample. The claim says `calculate_performance` explicitly
guards the `ChangePct = -100` boundary so that the division by zero is never
reached.  It is not guarded: for the one-position input below with
`percentChange = -100`, the divisor `1 + (-100)/100` is `0` and the division
is executed on it, so the `DailyPnL` is the undefined (non-finite) value,
modelled `none`. -/
theorem c2_no_guard_counterexample :
    ((calculate_performance [⟨"A", 1⟩] [("A", 5)] [("A", -100)]).rows.map
        (·.dailyPnL) = [none]) ∧
    (1 + (-100 : ℚ) / 100 = 0) := by
  constructor
  · norm_num [calculate_performance, perfRow, valueOf, pnlOf, List.lookup]
  · norm_num

/-- C2 amended. `calculate_performance` performs the daily-P&L division
with no guard; for a row with present operands the division's divisor is zero
(and the result undefined, `none`) exactly when `ChangePct = -100`, and for
every other `ChangePct` no division by zero occurs. -/
theorem c2_daily_pnl_undefined_iff (v c : ℚ) :
    pnlOf (some v) (some c) = none ↔ c = -100 := by
  by_cases h : 1 + c / 100 = 0
  · simp only [pnlOf, if_pos h]
    exact iff_of_true trivial (divisor_eq_zero_iff c |>.1 h)
  · simp only [pnlOf, if_neg h]
    exact iff_of_false (by simp) fun hc => h (divisor_eq_zero_iff c |>.2 hc)

/-! ### C3: quote derivation from the non-missing observations -/

/-- C3. `fetch_market_data`'s per-ticker quote derivation
(`quoteFromSeries`) uses only the non-missing observations
(`filterMap id` = `dropna()`): with at least two of them the current price
is the last one and the percent change is `(last - second_last)/second_last * 100`;
with exactly one, that value and change `0`; with none, `(0, 0)`.  It is
independent of gaps: any two series with the same non-missing observations
get the same quote. -/
theorem c3_quote_from_non_missing (s : List (Option ℚ)) :
    (∀ init prev_close current_price,
        s.filterMap id = init ++ [prev_close, current_price] →
        quoteFromSeries s =
          (current_price, (current_price - prev_close) / prev_close * 100)) ∧
    (∀ only, s.filterMap id = [only] → quoteFromSeries s = (only, 0)) ∧
    (s.filterMap id = [] → quoteFromSeries s = (0, 0)) ∧
    (∀ s2 : List (Option ℚ), s2.filterMap id = s.filterMap id →
        quoteFromSeries s2 = quoteFromSeries s) := by
  refine ⟨?_, ?_, ?_, ?_⟩
  · intro init prev_close current_price h
    unfold quoteFromSeries
    rw [h]
    simp [List.reverse_append]
  · intro only h
    unfold quoteFromSeries
    rw [h]
    simp
  · intro h
    unfold quoteFromSeries
    rw [h]
    simp
  · intro s2 h
    unfold quoteFromSeries
    rw [h]

/-- Witness for C3 at the spec's gap example: series `[NaN, 100, NaN, 110]`
gives current price 110 and percent change 10. -/
theorem c3_quote_from_non_missing_witness :
    quoteFromSeries [none, some 100, none, some (110 : ℚ)] = (110, 10) := by
  have h := (c3_quote_from_non_missing [none, some 100, none, some (110 : ℚ)]).1
      [] 100 110 (by simp)
  rw [h]
  norm_num

/-! ### C5: per-ticker failure isolation in `fetch_market_data` -/

/-- C5. `fetch_market_data` never aborts the batch: it returns one entry
per ticker of `all_tickers = symbols + indices`; a ticker whose series
extraction raises gets the zero-default quote `(0, 0)`, a ticker whose
extraction succeeds gets its normal quote, and each ticker's entry depends
only on that ticker's own fetch outcome (so one ticker's failure leaves
every other ticker's result unchanged). -/
theorem c5_per_ticker_isolation (df : List Position)
    (close1 close2 : String → Except String (List (Option ℚ))) (i : ℕ) :
    (fetch_market_data df close1).length = (df.map Position.symbol ++ indices).length ∧
    ∀ t, (df.map Position.symbol ++ indices)[i]? = some t →
      (∀ e, close1 t = .error e →
          (fetch_market_data df close1)[i]? = some (t, 0, 0)) ∧
      (∀ s, close1 t = .ok s →
          (fetch_market_data df close1)[i]? = some (t, quoteFromSeries s)) ∧
      (close1 t = close2 t →
          (fetch_market_data df close1)[i]? = (fetch_market_data df close2)[i]?) := by
  constructor
  · simp only [fetch_market_data, List.length_map]
  · intro t ht
    refine ⟨?_, ?_, ?_⟩
    · intro e he
      simp only [fetch_market_data, List.getElem?_map, ht, Option.map_some']
      rw [he]
    · intro s hs
      simp only [fetch_market_data, List.getElem?_map, ht, Option.map_some']
      rw [hs]
    · intro hsame
      simp only [fetch_market_data, List.getElem?_map, ht, Option.map_some']
      rw [hsame]

/-- Witness for C5: in a two-ticker portfolio whose first ticker's fetch
raises, the first ticker gets the zero default and the second is still
processed normally. -/
theorem c5_per_ticker_isolation_witness :
    (fetch_market_data [⟨"A.NS", 1⟩, ⟨"B.NS", 2⟩]
        (fun t => if t = "A.NS" then Except.error "boom"
          else Except.ok [some 100, some 110]))[0]? = some ("A.NS", 0, 0) ∧
    (fetch_market_data [⟨"A.NS", 1⟩, ⟨"B.NS", 2⟩]
        (fun t => if t = "A.NS" then Except.error "boom"
          else Except.ok [some 100, some 110]))[1]? = some ("B.NS", 110, 10) := by
  constructor
  · exact ((c5_per_ticker_isolation [⟨"A.NS", 1⟩, ⟨"B.NS", 2⟩]
      (fun t => if t = "A.NS" then Except.error "boom"
        else Except.ok [some 100, some 110])
      (fun t => if t = "A.NS" then Except.error "boom"
        else Except.ok [some 100, some 110]) 0).2 "A.NS" rfl).1 "boom" rfl
  · have h := ((c5_per_ticker_isolation [⟨"A.NS", 1⟩, ⟨"B.NS", 2⟩]
      (fun t => if t = "A.NS" then Except.error "boom"
        else Except.ok [some 100, some 110])
      (fun t => if t = "A.NS" then Except.error "boom"
        else Except.ok [some 100, some 110]) 1).2 "B.NS" rfl).2.1
      [some 100, some 110] rfl
    rw [h]
    have hq : (List.filterMap id [some (100 : ℚ), some 110]).reverse = [110, 100] := rfl
    unfold quoteFromSeries
    rw [hq]
    norm_num

/-! ### C6: unmatched symbols -/

/-- pandas `skipna` sum, one step: a missing entry contributes `0`. -/
theorem nanSum_cons (o : Option ℚ) (l : List (Option ℚ)) :
    nanSum (o :: l) = o.getD 0 + nanSum l := by
  cases o <;> simp [nanSum]

@[simp] theorem pnlOf_none_left (pct : Option ℚ) : pnlOf none pct = none := by
  cases pct <;> rfl

@[simp] theorem pnlOf_none_right (value : Option ℚ) : pnlOf value none = none := by
  cases value <;> rfl

/-- A `skipna` column total is unchanged by discarding the rows of unmatched
positions, provided the column is missing (`NaN`) on every unmatched row. -/
theorem nanSum_map_filter (df : List Position) (cp pch : QuoteMap)
    (f : PerfRow → Option ℚ)
    (hf : ∀ p : Position, cp.lookup p.symbol = none → f (perfRow cp pch p) = none) :
    nanSum ((df.map (perfRow cp pch)).map f) =
      nanSum (((df.filter fun p => (cp.lookup p.symbol).isSome).map
        (perfRow cp pch)).map f) := by
  induction df with
  | nil => rfl
  | cons p rest ih =>
    by_cases h : (cp.lookup p.symbol).isSome
    · rw [List.filter_cons_of_pos (by simpa using h)]
      simp only [List.map_cons, nanSum_cons, ih]
    · have hnone : cp.lookup p.symbol = none :=
        Option.not_isSome_iff_eq_none.1 (by simpa using h)
      rw [List.filter_cons_of_neg (by simpa using h)]
      simp only [List.map_cons, nanSum_cons, hf p hnone, Option.getD_none, zero_add, ih]

/-- C6 counterexample. The claim says a position whose symbol is absent
from the quotes mapping "gets price 0".  It does not: `Series.map` on an
absent key yields `NaN` (modelled `none`), not `0` — for the one-position
input below with empty quote maps the `CurrentPrice` column is `[NaN]`,
not `[0]`. -/
theorem c6_unmatched_price_counterexample :
    ((calculate_performance [⟨"A", 2⟩] [] []).rows.map (·.currentPrice) = [none]) ∧
    ((calculate_performance [⟨"A", 2⟩] [] []).rows.map (·.currentPrice) ≠ [some 0]) := by
  constructor
  · rfl
  · intro h
    simp [calculate_performance, perfRow] at h

/-- C6 amended. A position whose symbol has no entry in the price
mapping gets a missing (`NaN`) `CurrentPrice`, hence missing `CurrentValue`
and `DailyPnL`; the `skipna` sums ignore missing values, so `total_value`
and `total_daily_pnl` over all positions equal the totals computed over only
the matched positions. -/
theorem c6_unmatched_contribute_nothing (df : List Position)
    (current_prices percent_changes : QuoteMap) :
    (∀ r ∈ (calculate_performance df current_prices percent_changes).rows,
        current_prices.lookup r.symbol = none →
        r.currentPrice = none ∧ r.currentValue = none ∧ r.dailyPnL = none) ∧
    (calculate_performance df current_prices percent_changes).total_value =
      (calculate_performance
          (df.filter fun p => (current_prices.lookup p.symbol).isSome)
          current_prices percent_changes).total_value ∧
    (calculate_performance df current_prices percent_changes).total_daily_pnl =
      (calculate_performance
          (df.filter fun p => (current_prices.lookup p.symbol).isSome)
          current_prices percent_changes).total_daily_pnl := by
  refine ⟨?_, ?_, ?_⟩
  · intro r hr hnone
    simp only [calculate_performance, List.mem_map] at hr
    obtain ⟨p, hp, rfl⟩ := hr
    simp only [perfRow] at hnone ⊢
    rw [hnone]
    exact ⟨rfl, rfl, rfl⟩
  · simp only [calculate_performance]
    exact nanSum_map_filter df current_prices percent_changes (·.currentValue)
      fun p h => by simp [perfRow, valueOf, h]
  · simp only [calculate_performance]
    exact nanSum_map_filter df current_prices percent_changes (·.dailyPnL)
      fun p h => by simp [perfRow, valueOf, h]

/-- Witness for C6 (amended): a two-position portfolio whose second symbol
is unmatched has the same totals as its matched one-position restriction. -/
theorem c6_unmatched_contribute_nothing_witness :
    (calculate_performance [⟨"A", 1⟩, ⟨"B", 2⟩] [("A", 5)] [("A", 3)]).total_value =
      (calculate_performance
          ([⟨"A", 1⟩, ⟨"B", 2⟩].filter fun p => ((List.lookup p.symbol [("A", 5)]).isSome))
          [("A", 5)] [("A", 3)]).total_value ∧
    (perfRow [("A", 5)] [("A", 3)] ⟨"B", 2⟩).currentPrice = none ∧
    (perfRow [("A", 5)] [("A", 3)] ⟨"B", 2⟩).currentValue = none ∧
    (perfRow [("A", 5)] [("A", 3)] ⟨"B", 2⟩).dailyPnL = none := by
  refine ⟨(c6_unmatched_contribute_nothing [⟨"A", 1⟩, ⟨"B", 2⟩] [("A", 5)] [("A", 3)]).2.1, ?_⟩
  exact (c6_unmatched_contribute_nothing [⟨"A", 1⟩, ⟨"B", 2⟩] [("A", 5)] [("A", 3)]).1
    (perfRow [("A", 5)] [("A", 3)] ⟨"B", 2⟩) (by simp [calculate_performance]) rfl

/-! ### C7: idempotence of the symbol normalizer -/

/-- An association-list hit names a pair of the list. -/
theorem lookup_mem {l : List (String × String)} {k v : String}
    (h : l.lookup k = some v) : (k, v) ∈ l := by
  induction l with
  | nil => simp [List.lookup] at h
  | cons p rest ih =>
      obtain ⟨k', v'⟩ := p
      rw [List.lookup] at h
      by_cases hk : k == k'
      · simp only [hk] at h
        obtain rfl : v' = v := by injection h
        obtain rfl : k = k' := eq_of_beq hk
        exact List.mem_cons_self _ _
      · simp only [Bool.not_eq_true] at hk
        rw [hk] at h
        exact List.mem_cons_of_mem _ (ih h)

/-- Well-formedness of the static table: every value is left unchanged by the
`.NS`-removal pass, and any value that is itself a key maps to itself. -/
theorem symbol_map_values_ok :
    (symbol_map.all fun p =>
      (replaceNS p.2 == p.2) && ((symbol_map.lookup p.2).getD p.2 == p.2)) = true := rfl

/-- C7 counterexample. The claim says `normalize (normalize x) = normalize x`
for every string `x`.  It fails at `x = "..NSNS"`: removing the
non-overlapping occurrences of `".NS"` in one pass creates a fresh `".NS"`
(`"..NSNS"` → `".NS"`, not a key of the table), and a second application
removes it (`".NS"` → `""`). -/
theorem c7_not_idempotent_counterexample :
    get_correct_symbol (get_correct_symbol "..NSNS") ≠ get_correct_symbol "..NSNS" := by
  decide

/-- C7 amended. `get_correct_symbol` is idempotent on every input whose
stripped form is itself unchanged by the `.NS`-removal pass, i.e. whose
stripped form contains no `".NS"` occurrence — in particular on every symbol
that is an `".NS"`-free base with an optional `".NS"` suffix.  (The mapping
table is well formed: no lookup output needs further remapping or stripping.) -/
theorem c7_idempotent_on_clean_inputs (x : String)
    (hx : replaceNS (replaceNS x) = replaceNS x) :
    get_correct_symbol (get_correct_symbol x) = get_correct_symbol x := by
  simp only [get_correct_symbol]
  cases hl : symbol_map.lookup (replaceNS x) with
  | none => simp [hl, hx]
  | some v =>
      have hv : (replaceNS x, v) ∈ symbol_map := lookup_mem hl
      have hall := List.all_eq_true.1 symbol_map_values_ok ⟨replaceNS x, v⟩ hv
      rw [Bool.and_eq_true] at hall
      obtain ⟨h1, h2⟩ := hall
      have h1' : replaceNS v = v := by simpa using h1
      have h2' : (symbol_map.lookup v).getD v = v := by simpa using h2
      rw [h1']
      cases hl2 : symbol_map.lookup v with
      | none => simp
      | some w =>
          have hw : w = v := by simpa [hl2] using h2'
          simp [hw]

/-- Witness for C7 (amended) at the real portfolio symbol `"TATMOT.NS"`
(stripped form `"TATMOT"`, remapped to `"TATAMOTORS"`). -/
theorem c7_idempotent_on_clean_inputs_witness :
    get_correct_symbol (get_correct_symbol "TATMOT.NS") = get_correct_symbol "TATMOT.NS" :=
  c7_idempotent_on_clean_inputs "TATMOT.NS" rfl

/-! ### C8: the weekend guard -/

/-- C8. When the current day-of-week is Saturday (5) or Sunday (6),
`run_briefing` terminates in the `Skip` state having invoked no pipeline
stage at all — in particular none of the network-touching stages (quote
fetch, news fetch, narrative generation, report or alert delivery) and no
portfolio load or performance computation. -/
theorem c8_weekend_skip (env : Env) (today : ℕ)
    (h : today = 5 ∨ today = 6) :
    run_briefing env today = (RunOutcome.skip, []) := by
  rcases h with h | h <;> rw [h] <;> rfl

/-- Witness for C8 on a Sunday, with an environment in which every external
interaction would fail if it were attempted. -/
theorem c8_weekend_skip_witness :
    run_briefing
      ⟨none, fun _ => Except.error "offline", Except.error "offline", "",
        Except.error "offline"⟩ 6 = (RunOutcome.skip, []) :=
  c8_weekend_skip _ 6 (Or.inr rfl)

/-! ### C9: the cleanup utility rewrites only the Symbol field -/

/-- C9. `fix_portfolio` preserves the number of rows, and rewrites each
row to the same row with only its `Symbol` field replaced by
`get_correct_symbol` of the old value — `Quantity` and every other field
are unchanged row-for-row. -/
theorem c9_fix_portfolio_frame (rows : List CsvRow) :
    (fix_portfolio rows).length = rows.length ∧
    ∀ (i : ℕ) (r : CsvRow), rows[i]? = some r →
      (fix_portfolio rows)[i]? =
        some { symbol := get_correct_symbol r.symbol,
               quantity := r.quantity, rest := r.rest } := by
  constructor
  · simp [fix_portfolio]
  · intro i r hir
    simp only [fix_portfolio, List.getElem?_map, hir, Option.map_some']

/-- Witness for C9 on a one-row table carrying an extra column: quantity and
the extra field survive, the symbol is remapped. -/
theorem c9_fix_portfolio_frame_witness :
    (fix_portfolio [⟨"TATMOT.NS", 7, ["2024-01-01"]⟩])[0]? =
      some ⟨"TATAMOTORS", 7, ["2024-01-01"]⟩ := by
  have h := (c9_fix_portfolio_frame [⟨"TATMOT.NS", 7, ["2024-01-01"]⟩]).2 0
    ⟨"TATMOT.NS", 7, ["2024-01-01"]⟩ rfl
  rw [h]
  rfl

/-! ### C10: `.NS` is removed everywhere, not only as a suffix -/

/-- C10. The normalizer's strip step removes every occurrence of
`".NS"`, not only a trailing suffix: on `"A.NSB"`, whose `".NS"` occurrence
is not a suffix, it yields `"AB"`, which differs from the input with only a
trailing `".NS"` removed (the input has no trailing `".NS"`, so a
suffix-only strip would leave it unchanged); the news fetcher's term
cleaning is the same replacement and behaves identically. -/
theorem c10_strip_not_only_suffix :
    replaceNS "A.NSB" = "AB" ∧
    "A.NSB" ≠ "AB" ∧
    (List.isSuffixOf ['.', 'N', 'S'] "A.NSB".data) = false ∧
    newsSearchTerm "A.NSB" = "AB" := by
  refine ⟨rfl, by decide, by decide, rfl⟩

/-! ### C4: top gainers / top losers ranking -/

theorem gainBefore_and_ne {a b : ℕ × PerfRow}
    (h : gainBefore a b) (hne : a.1 ≠ b.1) : gainStrictBefore a b := by
  rcases h with h | ⟨heq, hle⟩
  · exact Or.inl h
  · exact Or.inr ⟨heq, lt_of_le_of_ne hle hne⟩

theorem loseBefore_and_ne {a b : ℕ × PerfRow}
    (h : loseBefore a b) (hne : a.1 ≠ b.1) : loseStrictBefore a b := by
  rcases h with h | ⟨heq, hle⟩
  · exact Or.inl h
  · exact Or.inr ⟨heq, lt_of_le_of_ne hle hne⟩

/-- Selecting the first `n` entries of a stable sort: the selection has
`min n N` entries, is internally ordered by the sort relation, and no
unselected element could displace a selected one. -/
theorem insertionSort_take_spec {α : Type} (r : α → α → Prop) [DecidableRel r]
    [IsTotal α r] [IsTrans α r] (E : List α) (n : ℕ) :
    ((List.insertionSort r E).take n).length = min n E.length ∧
    ((List.insertionSort r E).take n).Pairwise r ∧
    (∀ x ∈ E, x ∉ (List.insertionSort r E).take n →
      ∀ g ∈ (List.insertionSort r E).take n, r g x) := by
  have hperm := List.perm_insertionSort r E
  have hsorted : (List.insertionSort r E).Pairwise r := List.sorted_insertionSort r E
  refine ⟨?_, ?_, ?_⟩
  · rw [List.length_take, hperm.length_eq]
  · exact hsorted.sublist (List.take_sublist _ _)
  · intro x hxE hxG g hg
    have hxS : x ∈ List.insertionSort r E := hperm.mem_iff.2 hxE
    have hsplit := List.take_append_drop n (List.insertionSort r E)
    have hxdrop : x ∈ (List.insertionSort r E).drop n := by
      rcases List.mem_append.1 (by rw [hsplit]; exact hxS) with h | h
      · exact absurd h hxG
      · exact h
    rw [← hsplit] at hsorted
    exact (List.pairwise_append.1 hsorted).2.2 g hg x hxdrop

/-- The original row indices of a truncated sort of enumerated rows are
pairwise distinct. -/
theorem take_sort_fst_nodup (r : (ℕ × PerfRow) → (ℕ × PerfRow) → Prop)
    [DecidableRel r] (rows : List PerfRow) (n : ℕ) :
    ((List.insertionSort r rows.enum).take n).Pairwise fun a b => a.1 ≠ b.1 := by
  have hmapfst : rows.enum.map Prod.fst = List.range' 0 rows.length :=
    List.enumFrom_map_fst 0 rows
  have hndE : (rows.enum.map Prod.fst).Nodup := by
    rw [hmapfst]; exact List.nodup_range' 0 rows.length
  have hperm : List.Perm (List.insertionSort r rows.enum) rows.enum :=
    List.perm_insertionSort r _
  have hndS : ((List.insertionSort r rows.enum).map Prod.fst).Nodup :=
    ((hperm.map Prod.fst).nodup_iff).2 hndE
  have hsub : List.Sublist (((List.insertionSort r rows.enum).take n).map Prod.fst)
      ((List.insertionSort r rows.enum).map Prod.fst) :=
    (List.take_sublist n _).map Prod.fst
  exact List.pairwise_map.1 (hndS.sublist hsub)

/-- C4. When every position's symbol is matched by the quote mapping
(so `nlargest`/`nsmallest` drop no `NaN` rows), the `top_gainers` selection
has exactly `min 3 N` entries and is ordered by `ChangePct` strictly
descending with ties in strictly increasing original-row order (stable
selection); dually `top_losers` is ordered ascending with the same
tie-breaking; and the selections are "top": no unselected row could displace
a selected one under the respective order. -/
theorem c4_top_movers (df : List Position)
    (current_prices percent_changes : QuoteMap)
    (hm : ∀ p ∈ df, (percent_changes.lookup p.symbol).isSome) :
    (calculate_performance df current_prices percent_changes).top_gainers.length
        = min 3 df.length ∧
    (calculate_performance df current_prices percent_changes).top_losers.length
        = min 3 df.length ∧
    (calculate_performance df current_prices percent_changes).top_gainers.Pairwise
        gainStrictBefore ∧
    (calculate_performance df current_prices percent_changes).top_losers.Pairwise
        loseStrictBefore ∧
    (∀ x ∈ ((calculate_performance df current_prices percent_changes).rows).enum,
        x ∉ (calculate_performance df current_prices percent_changes).top_gainers →
        ∀ g ∈ (calculate_performance df current_prices percent_changes).top_gainers,
          gainBefore g x) ∧
    (∀ x ∈ ((calculate_performance df current_prices percent_changes).rows).enum,
        x ∉ (calculate_performance df current_prices percent_changes).top_losers →
        ∀ g ∈ (calculate_performance df current_prices percent_changes).top_losers,
          loseBefore g x) := by
  simp only [calculate_performance, nlargestPct, nsmallestPct]
  have henum : ∀ x ∈ (df.map (perfRow current_prices percent_changes)).enum,
      (x.2.changePct.isSome) = true := by
    intro x hx
    have hget := List.mem_enum_iff_getElem?.1 hx
    have hx2 : x.2 ∈ df.map (perfRow current_prices percent_changes) :=
      List.getElem?_mem hget
    obtain ⟨p, hp, hpx⟩ := List.mem_map.1 hx2
    rw [← hpx]
    simpa [perfRow] using hm p hp
  have hfilter : ((df.map (perfRow current_prices percent_changes)).enum.filter
      fun x => x.2.changePct.isSome) =
      (df.map (perfRow current_prices percent_changes)).enum :=
    List.filter_eq_self.mpr henum
  rw [hfilter]
  have hElen : (df.map (perfRow current_prices percent_changes)).enum.length
      = df.length := by
    simp [List.enum_eq_enumFrom]
  have hG := insertionSort_take_spec gainBefore
    (df.map (perfRow current_prices percent_changes)).enum 3
  have hL := insertionSort_take_spec loseBefore
    (df.map (perfRow current_prices percent_changes)).enum 3
  refine ⟨?_, ?_, ?_, ?_, ?_, ?_⟩
  · rw [hG.1, hElen]
  · rw [hL.1, hElen]
  · exact (hG.2.1.and (take_sort_fst_nodup gainBefore _ 3)).imp
      fun h => gainBefore_and_ne h.1 h.2
  · exact (hL.2.1.and (take_sort_fst_nodup loseBefore _ 3)).imp
      fun h => loseBefore_and_ne h.1 h.2
  · exact hG.2.2
  · exact hL.2.2

/-- Witness for C4 on a four-position portfolio with a `ChangePct` tie:
both selections are size `min 3 4 = 3`. -/
theorem c4_top_movers_witness :
    (calculate_performance [⟨"A", 1⟩, ⟨"B", 1⟩, ⟨"C", 1⟩, ⟨"D", 1⟩]
        [("A", 1), ("B", 1), ("C", 1), ("D", 1)]
        [("A", 5), ("B", 2), ("C", 5), ("D", 1)]).top_gainers.length = min 3 4 ∧
    (calculate_performance [⟨"A", 1⟩, ⟨"B", 1⟩, ⟨"C", 1⟩, ⟨"D", 1⟩]
        [("A", 1), ("B", 1), ("C", 1), ("D", 1)]
        [("A", 5), ("B", 2), ("C", 5), ("D", 1)]).top_losers.length = min 3 4 := by
  have h := c4_top_movers [⟨"A", 1⟩, ⟨"B", 1⟩, ⟨"C", 1⟩, ⟨"D", 1⟩]
    [("A", 1), ("B", 1), ("C", 1), ("D", 1)]
    [("A", 5), ("B", 2), ("C", 5), ("D", 1)] (by decide)
  exact ⟨h.1, h.2.1⟩

end IndianMarketBriefing
